import Mathlib

/-!
Verification of `scripts/parallel_compress_python.py`: a shallow embedding of
the codec adapters (`compress_file_gzip`, `compress_file_bzip2`,
`compress_file_xz`), the algorithm lookup (`get_compression_function`), the
parallel job runner (`compress_files_parallel`) and its summary block.

Modelling choices:
  - The file system is a map from path strings to file contents (byte lists);
    wall-clock time is not modelled (the `time_taken` field is always 0).
  - Python exceptions are modelled with `Except`: true division raising
    `ZeroDivisionError` is `pyDiv`, and the `try ... except` blocks of the
    adapters and of the runner's collection loop are the `match`es that turn
    an `Except.error` into an error-string outcome.
  - The external compression libraries (gzip, bz2, lzma) are opaque
    parameters `(level : Nat) -> Bytes -> Bytes`; the design treats them as
    trusted externals.
  - The nondeterministic completion order of `as_completed` is an explicit
    `completion_order` parameter, constrained to be a permutation of the
    submitted file list in the theorems.
  - `pathlib.Path` operations are modelled on raw strings: `Path.name` is the
    part after the last slash, `Path.suffix` is the part of the name from its
    last dot subject to CPython's `0 < i < len(name) - 1` condition, and
    `Path.with_suffix` replaces that suffix.
-/

/-- File contents: a sequence of bytes. -/
abbrev Bytes := List Nat

/-- The file system: a map from path strings to file contents. -/
abbrev FS := String → Option Bytes

/-- Writing a file: the map is updated at one path. -/
def updateFS (fs : FS) (p : String) (v : Bytes) : FS :=
  fun q => if q = p then some v else fs q

/-- The last `n` characters of a character list. -/
def takeRightL (l : List Char) (n : Nat) : List Char :=
  l.drop (l.length - n)

/-- All but the last `n` characters of a character list. -/
def dropRightL (l : List Char) (n : Nat) : List Char :=
  l.take (l.length - n)

/-- Characters after the last slash: `Path(s).name` at character-list level. -/
def nameData (l : List Char) : List Char :=
  (l.reverse.takeWhile (fun c => c ≠ '/')).reverse

/-- Python `Path(s).name`: the final path component. -/
def pathName (s : String) : String :=
  ⟨nameData s.data⟩

/-- The characters of a name strictly after its last dot (the whole name when
it has no dot). -/
def afterDot (name : List Char) : List Char :=
  name.reverse.takeWhile (fun c => c ≠ '.')

/-- Length of CPython `Path.suffix` of a name: the part from the last dot,
provided that dot is at an index `i` with `0 < i < len(name) - 1`. -/
def suffixLen (name : List Char) : Nat :=
  if (afterDot name).length = name.length then 0
  else if (afterDot name).length + 1 = name.length then 0
  else if (afterDot name).length = 0 then 0
  else (afterDot name).length + 1

/-- Python `Path(s).suffix`: the extension of the final component. -/
def pathSuffix (s : String) : String :=
  ⟨takeRightL (nameData s.data) (suffixLen (nameData s.data))⟩

/-- Python `Path(s).with_suffix(suf)`: the old suffix is removed from the end
of the path (it is a tail of the final component) and `suf` is appended. -/
def withSuffix (s : String) (suf : String) : String :=
  ⟨dropRightL s.data (pathSuffix s).data.length ++ suf.data⟩

/-- Python true division of two `int`s, raising `ZeroDivisionError` on a zero
divisor. -/
def pyDiv (a b : Nat) : Except String Rat :=
  if b = 0 then .error "division by zero" else .ok ((a : Rat) / (b : Rat))

/-- The per-file statistic `(1 - compressed_size / original_size) * 100`,
raising when `original_size` is 0. -/
def compressionRatio (compressed_size original_size : Nat) : Except String Rat :=
  (pyDiv compressed_size original_size).map (fun q => (1 - q) * 100)

/-- The success dictionary returned by each adapter. -/
structure SuccessRec where
  file : String
  output : String
  original_size : Nat
  compressed_size : Nat
  compression_ratio : Rat
  time_taken : Rat
  algorithm : String
deriving DecidableEq, Repr

/-- An adapter outcome: the success dictionary or an error string. -/
inductive Outcome where
  | success : SuccessRec → Outcome
  | failure : String → Outcome
deriving DecidableEq, Repr

/-- Size of a file: `stat().st_size` (both files consulted by the adapters
exist at that point, so the default is never taken). -/
def bytesLen (o : Option Bytes) : Nat :=
  (o.getD []).length

/-- Output path of `compress_file_gzip` (source lines 26 to 29). -/
def gzipOutputPath (file_path : String) (output_dir : Option String) : String :=
  match output_dir with
  | some d => d ++ "/" ++ pathName file_path ++ ".gz"
  | none => withSuffix file_path (pathSuffix file_path ++ ".gz")

/-- Output path of `compress_file_bzip2` (source lines 61 to 64). -/
def bzip2OutputPath (file_path : String) (output_dir : Option String) : String :=
  match output_dir with
  | some d => d ++ "/" ++ pathName file_path ++ ".bz2"
  | none => withSuffix file_path (pathSuffix file_path ++ ".bz2")

/-- Output path of `compress_file_xz` (source lines 96 to 99). -/
def xzOutputPath (file_path : String) (output_dir : Option String) : String :=
  match output_dir with
  | some d => d ++ "/" ++ pathName file_path ++ ".xz"
  | none => withSuffix file_path (pathSuffix file_path ++ ".xz")

/-- `compress_file_gzip(file_path, output_dir, compression_level)`:
check existence, compute the output path, write the compressed stream, then
read both sizes and the ratio; any raise inside the `try` body (here: the
ratio's division) is caught and turned into an error string. Writes performed
before the raise persist. -/
def compress_file_gzip (gzipCompress : Nat → Bytes → Bytes) (fs : FS)
    (file_path : String) (output_dir : Option String) (compression_level : Nat) :
    Outcome × FS :=
  match fs file_path with
  | none => (.failure ("Error: " ++ file_path ++ " does not exist"), fs)
  | some data =>
      let output_path := gzipOutputPath file_path output_dir
      let fs2 := updateFS fs output_path (gzipCompress compression_level data)
      let original_size := bytesLen (fs2 file_path)
      let compressed_size := bytesLen (fs2 output_path)
      match compressionRatio compressed_size original_size with
      | .ok ratio =>
          (.success { file := file_path, output := output_path,
                      original_size := original_size,
                      compressed_size := compressed_size,
                      compression_ratio := ratio, time_taken := 0,
                      algorithm := "gzip" }, fs2)
      | .error e => (.failure ("Error compressing " ++ file_path ++ ": " ++ e), fs2)

/-- `compress_file_bzip2(file_path, output_dir, compression_level)`: same body
as the gzip adapter with the bz2 library and the `.bz2` extension. -/
def compress_file_bzip2 (bz2Compress : Nat → Bytes → Bytes) (fs : FS)
    (file_path : String) (output_dir : Option String) (compression_level : Nat) :
    Outcome × FS :=
  match fs file_path with
  | none => (.failure ("Error: " ++ file_path ++ " does not exist"), fs)
  | some data =>
      let output_path := bzip2OutputPath file_path output_dir
      let fs2 := updateFS fs output_path (bz2Compress compression_level data)
      let original_size := bytesLen (fs2 file_path)
      let compressed_size := bytesLen (fs2 output_path)
      match compressionRatio compressed_size original_size with
      | .ok ratio =>
          (.success { file := file_path, output := output_path,
                      original_size := original_size,
                      compressed_size := compressed_size,
                      compression_ratio := ratio, time_taken := 0,
                      algorithm := "bzip2" }, fs2)
      | .error e => (.failure ("Error compressing " ++ file_path ++ ": " ++ e), fs2)

/-- `compress_file_xz(file_path, output_dir, compression_level)`: same body as
the gzip adapter with the lzma library and the `.xz` extension. -/
def compress_file_xz (lzmaCompress : Nat → Bytes → Bytes) (fs : FS)
    (file_path : String) (output_dir : Option String) (compression_level : Nat) :
    Outcome × FS :=
  match fs file_path with
  | none => (.failure ("Error: " ++ file_path ++ " does not exist"), fs)
  | some data =>
      let output_path := xzOutputPath file_path output_dir
      let fs2 := updateFS fs output_path (lzmaCompress compression_level data)
      let original_size := bytesLen (fs2 file_path)
      let compressed_size := bytesLen (fs2 output_path)
      match compressionRatio compressed_size original_size with
      | .ok ratio =>
          (.success { file := file_path, output := output_path,
                      original_size := original_size,
                      compressed_size := compressed_size,
                      compression_ratio := ratio, time_taken := 0,
                      algorithm := "xz" }, fs2)
      | .error e => (.failure ("Error compressing " ++ file_path ++ ": " ++ e), fs2)

/-- Python `str.lower()` (the algorithm names involved are ASCII). -/
def strLower (s : String) : String :=
  ⟨s.data.map Char.toLower⟩

/-- The three compression functions, as selectable values. -/
inductive CompressFn where
  | gzip : CompressFn
  | bzip2 : CompressFn
  | xz : CompressFn
deriving DecidableEq, Repr

/-- The dictionary `{'gzip': ..., 'bzip2': ..., 'xz': ...}` with
`.get(key, compress_file_gzip)`. -/
def lookupAlgorithm (a : String) : CompressFn :=
  if a = "gzip" then .gzip
  else if a = "bzip2" then .bzip2
  else if a = "xz" then .xz
  else .gzip

/-- `get_compression_function(algorithm)`: dictionary lookup on
`algorithm.lower()` defaulting to `compress_file_gzip`. -/
def get_compression_function (algorithm : String) : CompressFn :=
  lookupAlgorithm (strLower algorithm)

/-- Default compression level when `compression_level is None` (source lines
143 to 144): `6 if algorithm in ['gzip', 'xz'] else 9`. -/
def defaultLevel (algorithm : String) : Nat :=
  if algorithm = "gzip" ∨ algorithm = "xz" then 6 else 9

/-- The level actually used: the caller's `compression_level` unless it is
`None`, in which case the default of `defaultLevel` (source lines 143 to 144). -/
def effectiveLevel (compression_level : Option Nat) (algorithm : String) : Nat :=
  match compression_level with
  | some l => l
  | none => defaultLevel algorithm

/-- What a submitted worker does: `future.result()` either returns an outcome
or raises. -/
inductive WorkerResult where
  | ok : Outcome → WorkerResult
  | raised : String → WorkerResult

/-- The body of the runner's collection loop for one completed future: the
result is appended, and a raise from `future.result()` is caught and appended
as `Error processing {file_path}: {e}`. -/
def runWorker (behavior : CompressFn → String → Option String → Nat → WorkerResult)
    (fn : CompressFn) (output_dir : Option String) (level : Nat)
    (file_path : String) : Outcome :=
  match behavior fn file_path output_dir level with
  | .ok r => r
  | .raised e => .failure ("Error processing " ++ file_path ++ ": " ++ e)

/-- `compress_files_parallel(file_list, algorithm, output_dir,
compression_level, max_workers)`. `max_workers` defaults to
`min(cpu_count(), len(file_list))`; `ProcessPoolExecutor` raises `ValueError`
when `max_workers` is not positive; otherwise every job is submitted and the
results list collects one outcome per completed future, in completion order. -/
def compress_files_parallel (cpu_count : Nat)
    (behavior : CompressFn → String → Option String → Nat → WorkerResult)
    (completion_order : List String) (file_list : List String)
    (algorithm : String) (output_dir : Option String)
    (compression_level : Option Nat) (max_workers : Option Nat) :
    Except String (List Outcome) :=
  let mw := match max_workers with
    | some w => w
    | none => min cpu_count file_list.length
  let fn := get_compression_function algorithm
  let level := effectiveLevel compression_level algorithm
  if mw = 0 then .error "max_workers must be greater than 0"
  else .ok (completion_order.map (runWorker behavior fn output_dir level))

/-- Modelled from the spec (section 4.1): the output path policy stated in the
spec's words, with the extension as a parameter: with an output directory the
output is `output_dir/<basename(path)><ext>`, otherwise the input path with
the codec extension appended after its existing suffix. The three codecs'
computed paths are compared against this one policy. -/
def outputPathSpec (ext : String) (path : String) (output_dir : Option String) : String :=
  match output_dir with
  | some d => d ++ "/" ++ pathName path ++ ext
  | none => path ++ ext

/-- The summary block's success filter:
`[r for r in results if isinstance(r, dict)]`. -/
def successes (results : List Outcome) : List SuccessRec :=
  results.filterMap (fun r => match r with
    | .success s => some s
    | .failure _ => none)

/-- The aggregate ratio expression
`(1 - total_compressed / total_original) * 100 if total_original > 0 else 0`:
the division is evaluated only under the guard. -/
def avgCompression (total_original total_compressed : Nat) : Except String Rat :=
  if total_original > 0 then
    (pyDiv total_compressed total_original).map (fun q => (1 - q) * 100)
  else .ok 0

/-- The aggregate figures of the summary block. -/
structure BatchSummary where
  files_processed : Nat
  total_original : Nat
  total_compressed : Nat
  avg_compression : Rat
deriving DecidableEq, Repr

/-- The runner's summary block (source lines 184 to 199): skipped entirely
(`none`) when there is no successful result; otherwise totals and the guarded
aggregate ratio. -/
def batch_summary (results : List Outcome) : Except String (Option BatchSummary) :=
  let s := successes results
  if s.length = 0 then .ok none
  else
    let total_original := (s.map (fun r => r.original_size)).sum
    let total_compressed := (s.map (fun r => r.compressed_size)).sum
    match avgCompression total_original total_compressed with
    | .ok avg => .ok (some { files_processed := s.length,
                             total_original := total_original,
                             total_compressed := total_compressed,
                             avg_compression := avg })
    | .error e => .error e

theorem takeWhile_all_append (p : Char → Bool) (a : List Char) (c : Char) (b : List Char)
    (ha : ∀ x ∈ a, p x = true) (hc : p c = false) :
    (a ++ c :: b).takeWhile p = a := by
  induction a with
  | nil => simp [List.takeWhile_cons, hc]
  | cons x xs ih =>
      have hx : p x = true := ha x (List.mem_cons_self x xs)
      simp only [List.cons_append, List.takeWhile_cons, hx, if_true]
      rw [ih (fun y hy => ha y (List.mem_cons_of_mem x hy))]

theorem nameData_eq_exists (l : List Char) : ∃ t, l = t ++ nameData l := by
  refine ⟨(l.reverse.dropWhile (fun c => c ≠ '/')).reverse, ?_⟩
  unfold nameData
  rw [← List.reverse_append, List.takeWhile_append_dropWhile, List.reverse_reverse]

theorem nameData_no_slash (l : List Char) : ∀ x ∈ nameData l, x ≠ '/' := by
  intro x hx
  unfold nameData at hx
  rw [List.mem_reverse] at hx
  have h2 := List.mem_takeWhile_imp hx
  simpa using h2

theorem suffixLen_le (name : List Char) : suffixLen name ≤ name.length := by
  have hle : (afterDot name).length ≤ name.length := by
    have h : (name.reverse.takeWhile (fun c => c ≠ '.')).length ≤ name.reverse.length :=
      List.Sublist.length_le (List.takeWhile_sublist _)
    calc (afterDot name).length ≤ name.reverse.length := h
      _ = name.length := List.length_reverse name
  unfold suffixLen
  split
  · omega
  · split
    · omega
    · split
      · omega
      · rename_i h1 h2 h3
        omega

theorem length_takeRightL (l : List Char) (k : Nat) (h : k ≤ l.length) :
    (takeRightL l k).length = k := by
  unfold takeRightL
  rw [List.length_drop]
  omega

theorem dropRightL_append_takeRightL (l : List Char) (k : Nat) :
    dropRightL l k ++ takeRightL l k = l :=
  List.take_append_drop _ l

theorem takeRightL_append (t r : List Char) (k : Nat) (h : k ≤ r.length) :
    takeRightL (t ++ r) k = takeRightL r k := by
  unfold takeRightL
  rw [List.length_append]
  have heq : t.length + r.length - k = t.length + (r.length - k) := by omega
  rw [heq, List.drop_append]

theorem takeRightL_of_eq_append (t r l : List Char) (k : Nat) (hl : l = t ++ r)
    (h : k ≤ r.length) : takeRightL l k = takeRightL r k := by
  subst hl
  exact takeRightL_append t r k h

theorem withSuffix_pathSuffix_append (s ext : String) :
    withSuffix s (pathSuffix s ++ ext) = s ++ ext := by
  apply String.ext
  show dropRightL s.data (pathSuffix s).data.length ++ (pathSuffix s ++ ext).data
      = (s ++ ext).data
  rw [String.data_append, String.data_append]
  have hk : suffixLen (nameData s.data) ≤ (nameData s.data).length :=
    suffixLen_le (nameData s.data)
  obtain ⟨t, ht⟩ := nameData_eq_exists s.data
  have hks : suffixLen (nameData s.data) ≤ s.data.length := by
    have hlen := congrArg List.length ht
    rw [List.length_append] at hlen
    omega
  have hps : (pathSuffix s).data = takeRightL s.data (suffixLen (nameData s.data)) :=
    (takeRightL_of_eq_append t (nameData s.data) s.data (suffixLen (nameData s.data)) ht hk).symm
  rw [hps, length_takeRightL s.data _ hks, ← List.append_assoc,
    dropRightL_append_takeRightL]

theorem nameData_append_slash (d rest : List Char) (h : ∀ x ∈ rest, x ≠ '/') :
    nameData (d ++ '/' :: rest) = rest := by
  unfold nameData
  have hrev : (d ++ '/' :: rest).reverse = rest.reverse ++ '/' :: d.reverse := by
    rw [List.reverse_append, List.reverse_cons, List.append_assoc]
    simp
  rw [hrev, takeWhile_all_append]
  · exact List.reverse_reverse rest
  · intro x hx
    rw [List.mem_reverse] at hx
    simpa using h x hx
  · simp

theorem append_ne_self (fp ext : String) (h : ext.data ≠ []) : fp ++ ext ≠ fp := by
  intro he
  have hd := congrArg String.data he
  rw [String.data_append] at hd
  have hl := congrArg List.length hd
  rw [List.length_append] at hl
  have hz : ext.data.length = 0 := by omega
  exact h (List.eq_nil_of_length_eq_zero hz)

theorem dirOutputPath_ne (d fp ext : String) (hext : ∀ x ∈ ext.data, x ≠ '/')
    (hne : ext.data ≠ []) : d ++ "/" ++ pathName fp ++ ext ≠ fp := by
  intro h
  have hdata : (d ++ "/" ++ pathName fp ++ ext).data = fp.data := congrArg String.data h
  rw [String.data_append, String.data_append, String.data_append] at hdata
  have hpn : (pathName fp).data = nameData fp.data := rfl
  rw [hpn] at hdata
  have harr : (d.data ++ "/".data ++ nameData fp.data) ++ ext.data
      = d.data ++ '/' :: (nameData fp.data ++ ext.data) := by
    show (d.data ++ ['/'] ++ nameData fp.data) ++ ext.data = _
    rw [List.append_assoc, List.append_assoc]
    rfl
  rw [harr] at hdata
  have hnm : nameData fp.data = nameData fp.data ++ ext.data := by
    conv_lhs => rw [← hdata]
    rw [nameData_append_slash]
    intro x hx
    rcases List.mem_append.mp hx with hx1 | hx2
    · exact nameData_no_slash fp.data x hx1
    · exact hext x hx2
  have hl := congrArg List.length hnm
  rw [List.length_append] at hl
  have hz : ext.data.length = 0 := by omega
  exact hne (List.eq_nil_of_length_eq_zero hz)

theorem gzipOutputPath_ne (fp : String) (od : Option String) :
    gzipOutputPath fp od ≠ fp := by
  cases od with
  | none =>
      show withSuffix fp (pathSuffix fp ++ ".gz") ≠ fp
      rw [withSuffix_pathSuffix_append]
      exact append_ne_self fp ".gz" (by decide)
  | some d =>
      exact dirOutputPath_ne d fp ".gz" (by decide) (by decide)

theorem bzip2OutputPath_ne (fp : String) (od : Option String) :
    bzip2OutputPath fp od ≠ fp := by
  cases od with
  | none =>
      show withSuffix fp (pathSuffix fp ++ ".bz2") ≠ fp
      rw [withSuffix_pathSuffix_append]
      exact append_ne_self fp ".bz2" (by decide)
  | some d =>
      exact dirOutputPath_ne d fp ".bz2" (by decide) (by decide)

theorem xzOutputPath_ne (fp : String) (od : Option String) :
    xzOutputPath fp od ≠ fp := by
  cases od with
  | none =>
      show withSuffix fp (pathSuffix fp ++ ".xz") ≠ fp
      rw [withSuffix_pathSuffix_append]
      exact append_ne_self fp ".xz" (by decide)
  | some d =>
      exact dirOutputPath_ne d fp ".xz" (by decide) (by decide)

/-- C5: every codec adapter computes its output path by one identical policy,
only the extension differing: with `output_dir` the output is
`output_dir/<basename(path)>.<ext>`, otherwise the input path with the codec
extension appended after the existing suffix. -/
theorem codecs_share_output_path_policy (file_path : String) (output_dir : Option String) :
    gzipOutputPath file_path output_dir = outputPathSpec ".gz" file_path output_dir ∧
    bzip2OutputPath file_path output_dir = outputPathSpec ".bz2" file_path output_dir ∧
    xzOutputPath file_path output_dir = outputPathSpec ".xz" file_path output_dir := by
  cases output_dir with
  | none =>
      exact ⟨withSuffix_pathSuffix_append file_path ".gz",
             withSuffix_pathSuffix_append file_path ".bz2",
             withSuffix_pathSuffix_append file_path ".xz"⟩
  | some d => exact ⟨rfl, rfl, rfl⟩

/-- C3 (code behavior at the failing input): with an empty file list and no
explicit `max_workers`, the runner computes `max_workers = min(cpu_count(), 0)
= 0` and `ProcessPoolExecutor(max_workers=0)` raises `ValueError`; no empty
outcome list is returned. -/
theorem runner_empty_list_raises (cpu : Nat)
    (behavior : CompressFn → String → Option String → Nat → WorkerResult)
    (algorithm : String) (output_dir : Option String) (compression_level : Option Nat) :
    compress_files_parallel cpu behavior [] [] algorithm output_dir compression_level none
      = .error "max_workers must be greater than 0" := by
  simp [compress_files_parallel]

/-- C10: with `compression_level = None` the level used is 6 exactly when the
algorithm string is `gzip` or `xz` and 9 otherwise (for `bzip2` and for any
other string), and running with `None` is the same as running with that
default level. -/
theorem default_compression_levels :
    defaultLevel "gzip" = 6 ∧ defaultLevel "xz" = 6 ∧ defaultLevel "bzip2" = 9 ∧
    (∀ algorithm : String, algorithm ≠ "gzip" → algorithm ≠ "xz" →
      defaultLevel algorithm = 9) ∧
    (∀ cpu behavior completion_order file_list algorithm output_dir max_workers,
      compress_files_parallel cpu behavior completion_order file_list algorithm
          output_dir none max_workers
        = compress_files_parallel cpu behavior completion_order file_list algorithm
          output_dir (some (defaultLevel algorithm)) max_workers) := by
  refine ⟨by decide, by decide, by decide, ?_, ?_⟩
  · intro a h1 h2
    have hno : ¬(a = "gzip" ∨ a = "xz") := by
      rintro (h | h)
      · exact h1 h
      · exact h2 h
    simp [defaultLevel, hno]
  · intro cpu behavior order files alg od mw
    rfl

/-- C10 witness: the defaults at concrete algorithm strings, by
`default_compression_levels`. -/
theorem default_compression_levels_witness :
    defaultLevel "bzip2" = 9 ∧ defaultLevel "GZIP" = 9 := by
  exact ⟨default_compression_levels.2.2.1,
         default_compression_levels.2.2.2.1 "GZIP" (by decide) (by decide)⟩

/-- C8: an algorithm string whose lowercase form is not one of the three known
names silently selects the gzip compressor; the lookup depends only on the
lowercased string (so it is case-insensitive, e.g. GZIP and gzip agree); and a
runner call with such an unrecognized algorithm behaves exactly as a call with
gzip (at an explicit level). -/
theorem unrecognized_algorithm_uses_gzip (algorithm : String)
    (h1 : strLower algorithm ≠ "gzip") (h2 : strLower algorithm ≠ "bzip2")
    (h3 : strLower algorithm ≠ "xz") :
    get_compression_function algorithm = .gzip ∧
    (∀ a b : String, strLower a = strLower b →
      get_compression_function a = get_compression_function b) ∧
    get_compression_function "GZIP" = get_compression_function "gzip" ∧
    (∀ cpu behavior completion_order file_list output_dir level max_workers,
      compress_files_parallel cpu behavior completion_order file_list algorithm
          output_dir (some level) max_workers
        = compress_files_parallel cpu behavior completion_order file_list "gzip"
          output_dir (some level) max_workers) := by
  have hg : get_compression_function algorithm = .gzip := by
    unfold get_compression_function lookupAlgorithm
    rw [if_neg h1, if_neg h2, if_neg h3]
  have hg2 : get_compression_function "gzip" = .gzip := by decide
  refine ⟨hg, ?_, by decide, ?_⟩
  · intro a b hab
    unfold get_compression_function
    rw [hab]
  · intro cpu behavior order files od lvl mw
    simp only [compress_files_parallel, hg, hg2, effectiveLevel]

/-- C8 witness: the lookup at the concrete unrecognized string lzma, by
`unrecognized_algorithm_uses_gzip`. -/
theorem unrecognized_algorithm_uses_gzip_witness :
    get_compression_function "lzma" = .gzip ∧
    get_compression_function "GZIP" = get_compression_function "gzip" := by
  have h := unrecognized_algorithm_uses_gzip "lzma" (by decide) (by decide) (by decide)
  exact ⟨h.1, h.2.2.1⟩

/-- C2: no adapter lets an error escape as anything but a returned outcome
value, and for an input path naming no existing file each adapter returns the
failure naming that path and leaves the file system unchanged (no output file
is created). -/
theorem adapters_missing_input_failure (gz bz lz : Nat → Bytes → Bytes) (fs : FS)
    (file_path : String) (output_dir : Option String) (level : Nat)
    (h : fs file_path = none) :
    compress_file_gzip gz fs file_path output_dir level
        = (.failure ("Error: " ++ file_path ++ " does not exist"), fs) ∧
    compress_file_bzip2 bz fs file_path output_dir level
        = (.failure ("Error: " ++ file_path ++ " does not exist"), fs) ∧
    compress_file_xz lz fs file_path output_dir level
        = (.failure ("Error: " ++ file_path ++ " does not exist"), fs) ∧
    (∀ fs2 fp2 od2 l2, (∃ s, (compress_file_gzip gz fs2 fp2 od2 l2).1 = .success s) ∨
      (∃ m, (compress_file_gzip gz fs2 fp2 od2 l2).1 = .failure m)) := by
  refine ⟨?_, ?_, ?_, ?_⟩
  · simp [compress_file_gzip, h]
  · simp [compress_file_bzip2, h]
  · simp [compress_file_xz, h]
  · intro fs2 fp2 od2 l2
    cases hres : (compress_file_gzip gz fs2 fp2 od2 l2).1 with
    | success s => exact Or.inl ⟨s, rfl⟩
    | failure m => exact Or.inr ⟨m, rfl⟩

/-- C2 witness: a concrete missing path, by `adapters_missing_input_failure`. -/
theorem adapters_missing_input_failure_witness :
    compress_file_gzip (fun _ d => d) (fun _ => none) "missing.txt" none 6
      = (.failure "Error: missing.txt does not exist", (fun _ => none : FS)) := by
  exact (adapters_missing_input_failure (fun _ d => d) (fun _ d => d) (fun _ d => d)
    (fun _ => none) "missing.txt" none 6 rfl).1

/-- C1: whenever the runner returns a list of outcomes, that list has exactly
one outcome per submitted job (no duplicates, no drops: it is the image of the
job list under the per-job worker collection, up to completion order), each
outcome is a success record or a failure, and a worker that raises is
converted into a failure naming that job's input path. -/
theorem runner_one_outcome_per_job (cpu : Nat)
    (behavior : CompressFn → String → Option String → Nat → WorkerResult)
    (completion_order file_list : List String) (algorithm : String)
    (output_dir : Option String) (compression_level max_workers : Option Nat)
    (results : List Outcome)
    (hperm : completion_order.Perm file_list)
    (hok : compress_files_parallel cpu behavior completion_order file_list algorithm
      output_dir compression_level max_workers = .ok results) :
    results.length = file_list.length ∧
    results.Perm (file_list.map (runWorker behavior (get_compression_function algorithm)
      output_dir (effectiveLevel compression_level algorithm))) ∧
    (∀ o ∈ results, (∃ s, o = .success s) ∨ (∃ m, o = .failure m)) ∧
    (∀ fp e, fp ∈ file_list →
      behavior (get_compression_function algorithm) fp output_dir
          (effectiveLevel compression_level algorithm) = .raised e →
      Outcome.failure ("Error processing " ++ fp ++ ": " ++ e) ∈ results) := by
  have hres : results = completion_order.map (runWorker behavior
      (get_compression_function algorithm) output_dir
      (effectiveLevel compression_level algorithm)) := by
    simp only [compress_files_parallel] at hok
    split at hok
    · exact absurd hok (by simp)
    · exact (Except.ok.inj hok).symm
  subst hres
  refine ⟨?_, ?_, ?_, ?_⟩
  · rw [List.length_map]
    exact hperm.length_eq
  · exact hperm.map _
  · intro o ho
    cases o with
    | success s => exact Or.inl ⟨s, rfl⟩
    | failure m => exact Or.inr ⟨m, rfl⟩
  · intro fp e hmem hraise
    have hmo : fp ∈ completion_order := hperm.mem_iff.mpr hmem
    have hw : runWorker behavior (get_compression_function algorithm) output_dir
        (effectiveLevel compression_level algorithm) fp
        = Outcome.failure ("Error processing " ++ fp ++ ": " ++ e) := by
      unfold runWorker
      rw [hraise]
    rw [← hw]
    exact List.mem_map_of_mem _ hmo

/-- C1 witness: a two-job batch whose workers raise, collected out of order,
by `runner_one_outcome_per_job`. -/
theorem runner_one_outcome_per_job_witness :
    ([Outcome.failure "Error processing b: boom",
      Outcome.failure "Error processing a: boom"] : List Outcome).length
        = (["a", "b"] : List String).length ∧
    Outcome.failure "Error processing a: boom"
      ∈ ([Outcome.failure "Error processing b: boom",
          Outcome.failure "Error processing a: boom"] : List Outcome) := by
  have h := runner_one_outcome_per_job 4 (fun _ _ _ _ => WorkerResult.raised "boom")
    ["b", "a"] ["a", "b"] "gzip" none none (some 2)
    [Outcome.failure "Error processing b: boom", Outcome.failure "Error processing a: boom"]
    (by decide) rfl
  exact ⟨h.1, h.2.2.2 "a" "boom" (by decide) rfl⟩

/-- The aggregate-ratio expression of the summary block never raises: the
division sits under the `total_original > 0` guard. -/
theorem avgCompression_ok (a b : Nat) : ∃ r, avgCompression a b = .ok r := by
  unfold avgCompression pyDiv
  by_cases h : a > 0
  · rw [if_pos h, if_neg (by omega)]
    exact ⟨_, rfl⟩
  · rw [if_neg h]
    exact ⟨0, rfl⟩

/-- C6 counterexample: on an all-failure batch the summary block is skipped
entirely; no summary (in particular none reporting zero successes) is
produced. -/
theorem all_failure_batch_no_summary :
    batch_summary [Outcome.failure "Error: x does not exist"] = .ok none := by
  rfl

/-- C6 amended: the reporter tolerates an all-failure batch by skipping the
summary block entirely (computing zero successes and reporting no summary);
the summary computation never raises a division fault, and the aggregate
ratio expression is defined as 0 whenever the total original size is 0. -/
theorem summary_tolerates_all_failure (results : List Outcome) :
    (successes results = [] → batch_summary results = .ok none) ∧
    (∃ v, batch_summary results = .ok v) ∧
    (∀ tc, avgCompression 0 tc = .ok 0) := by
  refine ⟨?_, ?_, ?_⟩
  · intro h
    simp [batch_summary, h]
  · by_cases hs : (successes results).length = 0
    · exact ⟨none, by simp [batch_summary, hs]⟩
    · obtain ⟨r, hr⟩ := avgCompression_ok
        ((successes results).map (fun x => x.original_size)).sum
        ((successes results).map (fun x => x.compressed_size)).sum
      refine ⟨some { files_processed := (successes results).length,
                     total_original := ((successes results).map (fun x => x.original_size)).sum,
                     total_compressed := ((successes results).map (fun x => x.compressed_size)).sum,
                     avg_compression := r }, ?_⟩
      simp only [batch_summary, hs, if_false, hr]
  · intro tc
    unfold avgCompression
    rw [if_neg (by omega)]

/-- C6 witness: a concrete all-failure batch and a concrete zero total, by
`summary_tolerates_all_failure`. -/
theorem summary_tolerates_all_failure_witness :
    batch_summary [Outcome.failure "e"] = .ok none ∧ avgCompression 0 5 = .ok 0 := by
  have h := summary_tolerates_all_failure [Outcome.failure "e"]
  exact ⟨h.1 rfl, h.2.2 5⟩

theorem updateFS_same (fs : FS) (p : String) (v : Bytes) : updateFS fs p v p = some v := by
  unfold updateFS
  rw [if_pos rfl]

theorem updateFS_other (fs : FS) (p q : String) (v : Bytes) (h : q ≠ p) :
    updateFS fs p v q = fs q := by
  unfold updateFS
  rw [if_neg h]

theorem compress_file_gzip_some (gz : Nat → Bytes → Bytes) (fs : FS) (fp : String)
    (od : Option String) (lvl : Nat) (data : Bytes) (h : fs fp = some data) :
    compress_file_gzip gz fs fp od lvl =
      (match compressionRatio (gz lvl data).length data.length with
       | .ok ratio =>
           Outcome.success
             { file := fp, output := gzipOutputPath fp od,
               original_size := data.length, compressed_size := (gz lvl data).length,
               compression_ratio := ratio, time_taken := 0, algorithm := "gzip" }
       | .error e => Outcome.failure ("Error compressing " ++ fp ++ ": " ++ e),
       updateFS fs (gzipOutputPath fp od) (gz lvl data)) := by
  have hne : fp ≠ gzipOutputPath fp od := Ne.symm (gzipOutputPath_ne fp od)
  have h1 : updateFS fs (gzipOutputPath fp od) (gz lvl data) fp = some data := by
    rw [updateFS_other fs _ fp _ hne]
    exact h
  unfold compress_file_gzip
  rw [h]
  simp only [h1, updateFS_same, bytesLen, Option.getD_some]
  cases compressionRatio _ _ <;> rfl

theorem compress_file_bzip2_some (bz : Nat → Bytes → Bytes) (fs : FS) (fp : String)
    (od : Option String) (lvl : Nat) (data : Bytes) (h : fs fp = some data) :
    compress_file_bzip2 bz fs fp od lvl =
      (match compressionRatio (bz lvl data).length data.length with
       | .ok ratio =>
           Outcome.success
             { file := fp, output := bzip2OutputPath fp od,
               original_size := data.length, compressed_size := (bz lvl data).length,
               compression_ratio := ratio, time_taken := 0, algorithm := "bzip2" }
       | .error e => Outcome.failure ("Error compressing " ++ fp ++ ": " ++ e),
       updateFS fs (bzip2OutputPath fp od) (bz lvl data)) := by
  have hne : fp ≠ bzip2OutputPath fp od := Ne.symm (bzip2OutputPath_ne fp od)
  have h1 : updateFS fs (bzip2OutputPath fp od) (bz lvl data) fp = some data := by
    rw [updateFS_other fs _ fp _ hne]
    exact h
  unfold compress_file_bzip2
  rw [h]
  simp only [h1, updateFS_same, bytesLen, Option.getD_some]
  cases compressionRatio _ _ <;> rfl

theorem compress_file_xz_some (lz : Nat → Bytes → Bytes) (fs : FS) (fp : String)
    (od : Option String) (lvl : Nat) (data : Bytes) (h : fs fp = some data) :
    compress_file_xz lz fs fp od lvl =
      (match compressionRatio (lz lvl data).length data.length with
       | .ok ratio =>
           Outcome.success
             { file := fp, output := xzOutputPath fp od,
               original_size := data.length, compressed_size := (lz lvl data).length,
               compression_ratio := ratio, time_taken := 0, algorithm := "xz" }
       | .error e => Outcome.failure ("Error compressing " ++ fp ++ ": " ++ e),
       updateFS fs (xzOutputPath fp od) (lz lvl data)) := by
  have hne : fp ≠ xzOutputPath fp od := Ne.symm (xzOutputPath_ne fp od)
  have h1 : updateFS fs (xzOutputPath fp od) (lz lvl data) fp = some data := by
    rw [updateFS_other fs _ fp _ hne]
    exact h
  unfold compress_file_xz
  rw [h]
  simp only [h1, updateFS_same, bytesLen, Option.getD_some]
  cases compressionRatio _ _ <;> rfl

/-- C4: on every successful compression, `original_size` is the size the
input file had before compression ran (its size in the pre-state file system)
and `compressed_size` is the size of the produced output file (in the
post-state file system), for each of the three codecs. -/
theorem adapter_success_sizes (gz bz lz : Nat → Bytes → Bytes) (fs : FS)
    (fp : String) (od : Option String) (lvl : Nat) (rec : SuccessRec) (fs2 : FS) :
    (compress_file_gzip gz fs fp od lvl = (.success rec, fs2) →
      (∃ data, fs fp = some data ∧ rec.original_size = data.length) ∧
      (fs2 rec.output).map List.length = some rec.compressed_size) ∧
    (compress_file_bzip2 bz fs fp od lvl = (.success rec, fs2) →
      (∃ data, fs fp = some data ∧ rec.original_size = data.length) ∧
      (fs2 rec.output).map List.length = some rec.compressed_size) ∧
    (compress_file_xz lz fs fp od lvl = (.success rec, fs2) →
      (∃ data, fs fp = some data ∧ rec.original_size = data.length) ∧
      (fs2 rec.output).map List.length = some rec.compressed_size) := by
  refine ⟨?_, ?_, ?_⟩
  · intro h
    cases hfs : fs fp with
    | none =>
        unfold compress_file_gzip at h
        rw [hfs] at h
        simp at h
    | some data =>
        rw [compress_file_gzip_some gz fs fp od lvl data hfs] at h
        cases hr : compressionRatio (gz lvl data).length data.length with
        | ok ratio =>
            rw [hr] at h
            injection h with h1 h2
            injection h1 with h1
            subst h2
            subst h1
            exact ⟨⟨data, rfl, rfl⟩, by rw [updateFS_same]; rfl⟩
        | error e =>
            rw [hr] at h
            simp at h
  · intro h
    cases hfs : fs fp with
    | none =>
        unfold compress_file_bzip2 at h
        rw [hfs] at h
        simp at h
    | some data =>
        rw [compress_file_bzip2_some bz fs fp od lvl data hfs] at h
        cases hr : compressionRatio (bz lvl data).length data.length with
        | ok ratio =>
            rw [hr] at h
            injection h with h1 h2
            injection h1 with h1
            subst h2
            subst h1
            exact ⟨⟨data, rfl, rfl⟩, by rw [updateFS_same]; rfl⟩
        | error e =>
            rw [hr] at h
            simp at h
  · intro h
    cases hfs : fs fp with
    | none =>
        unfold compress_file_xz at h
        rw [hfs] at h
        simp at h
    | some data =>
        rw [compress_file_xz_some lz fs fp od lvl data hfs] at h
        cases hr : compressionRatio (lz lvl data).length data.length with
        | ok ratio =>
            rw [hr] at h
            injection h with h1 h2
            injection h1 with h1
            subst h2
            subst h1
            exact ⟨⟨data, rfl, rfl⟩, by rw [updateFS_same]; rfl⟩
        | error e =>
            rw [hr] at h
            simp at h

/-- C4 witness: a concrete successful gzip compression, by
`adapter_success_sizes`. -/
theorem adapter_success_sizes_witness :
    (∃ data, (fun p => if p = "a.txt" then some ([1, 2, 3] : Bytes) else none) "a.txt"
       = some data ∧ (3 : Nat) = data.length) ∧
    ((compress_file_gzip (fun _ _ => ([0] : Bytes))
       (fun p => if p = "a.txt" then some ([1, 2, 3] : Bytes) else none) "a.txt" none 6).2
       "a.txt.gz").map List.length = some 1 := by
  have h := (adapter_success_sizes (fun _ _ => ([0] : Bytes)) (fun _ _ => ([0] : Bytes))
    (fun _ _ => ([0] : Bytes))
    (fun p => if p = "a.txt" then some ([1, 2, 3] : Bytes) else none) "a.txt" none 6
    { file := "a.txt", output := "a.txt.gz", original_size := 3, compressed_size := 1,
      compression_ratio := (1 - (1 : Rat) / 3) * 100, time_taken := 0, algorithm := "gzip" }
    ((compress_file_gzip (fun _ _ => ([0] : Bytes))
      (fun p => if p = "a.txt" then some ([1, 2, 3] : Bytes) else none) "a.txt" none 6).2)).1
    rfl
  exact ⟨h.1, h.2⟩

/-- C7: when the input file exists, each codec adapter leaves the input file
untouched (never deleted or modified), changes no path other than the one
output path, and writes the compressed byte stream of the input there. -/
theorem adapters_write_only_output (gz bz lz : Nat → Bytes → Bytes) (fs : FS)
    (fp : String) (od : Option String) (lvl : Nat) (data : Bytes)
    (h : fs fp = some data) :
    ((compress_file_gzip gz fs fp od lvl).2 fp = fs fp ∧
     (compress_file_gzip gz fs fp od lvl).2 (gzipOutputPath fp od) = some (gz lvl data) ∧
     (∀ p, p ≠ gzipOutputPath fp od → (compress_file_gzip gz fs fp od lvl).2 p = fs p)) ∧
    ((compress_file_bzip2 bz fs fp od lvl).2 fp = fs fp ∧
     (compress_file_bzip2 bz fs fp od lvl).2 (bzip2OutputPath fp od) = some (bz lvl data) ∧
     (∀ p, p ≠ bzip2OutputPath fp od → (compress_file_bzip2 bz fs fp od lvl).2 p = fs p)) ∧
    ((compress_file_xz lz fs fp od lvl).2 fp = fs fp ∧
     (compress_file_xz lz fs fp od lvl).2 (xzOutputPath fp od) = some (lz lvl data) ∧
     (∀ p, p ≠ xzOutputPath fp od → (compress_file_xz lz fs fp od lvl).2 p = fs p)) := by
  refine ⟨?_, ?_, ?_⟩
  · rw [compress_file_gzip_some gz fs fp od lvl data h]
    refine ⟨?_, updateFS_same fs _ _, ?_⟩
    · exact updateFS_other fs _ fp _ (Ne.symm (gzipOutputPath_ne fp od))
    · intro p hp
      exact updateFS_other fs _ p _ hp
  · rw [compress_file_bzip2_some bz fs fp od lvl data h]
    refine ⟨?_, updateFS_same fs _ _, ?_⟩
    · exact updateFS_other fs _ fp _ (Ne.symm (bzip2OutputPath_ne fp od))
    · intro p hp
      exact updateFS_other fs _ p _ hp
  · rw [compress_file_xz_some lz fs fp od lvl data h]
    refine ⟨?_, updateFS_same fs _ _, ?_⟩
    · exact updateFS_other fs _ fp _ (Ne.symm (xzOutputPath_ne fp od))
    · intro p hp
      exact updateFS_other fs _ p _ hp

/-- C7 witness: a concrete compression touching only the output path, by
`adapters_write_only_output`. -/
theorem adapters_write_only_output_witness :
    (compress_file_gzip (fun _ _ => ([9] : Bytes))
       (fun p => if p = "a.txt" then some ([1, 2] : Bytes) else none) "a.txt" none 6).2 "a.txt"
      = some [1, 2] ∧
    (compress_file_gzip (fun _ _ => ([9] : Bytes))
       (fun p => if p = "a.txt" then some ([1, 2] : Bytes) else none) "a.txt" none 6).2 "a.txt.gz"
      = some [9] ∧
    (compress_file_gzip (fun _ _ => ([9] : Bytes))
       (fun p => if p = "a.txt" then some ([1, 2] : Bytes) else none) "a.txt" none 6).2 "other.txt"
      = none := by
  have h := (adapters_write_only_output (fun _ _ => ([9] : Bytes)) (fun _ _ => ([9] : Bytes))
    (fun _ _ => ([9] : Bytes)) (fun p => if p = "a.txt" then some ([1, 2] : Bytes) else none)
    "a.txt" none 6 [1, 2] rfl).1
  exact ⟨h.1.trans rfl, h.2.1, (h.2.2 "other.txt" (by decide)).trans rfl⟩

/-- C9: for an existing zero-byte input file, each adapter writes the
compressed output file and then fails on the ratio's division by zero, which
the `except` turns into an error outcome: the call reports a failure while the
output file exists. -/
theorem adapters_zero_byte_input_failure (gz bz lz : Nat → Bytes → Bytes) (fs : FS)
    (fp : String) (od : Option String) (lvl : Nat) (h : fs fp = some ([] : Bytes)) :
    (compress_file_gzip gz fs fp od lvl
       = (.failure ("Error compressing " ++ fp ++ ": division by zero"),
          updateFS fs (gzipOutputPath fp od) (gz lvl [])) ∧
     (compress_file_gzip gz fs fp od lvl).2 (gzipOutputPath fp od) = some (gz lvl [])) ∧
    (compress_file_bzip2 bz fs fp od lvl
       = (.failure ("Error compressing " ++ fp ++ ": division by zero"),
          updateFS fs (bzip2OutputPath fp od) (bz lvl [])) ∧
     (compress_file_bzip2 bz fs fp od lvl).2 (bzip2OutputPath fp od) = some (bz lvl [])) ∧
    (compress_file_xz lz fs fp od lvl
       = (.failure ("Error compressing " ++ fp ++ ": division by zero"),
          updateFS fs (xzOutputPath fp od) (lz lvl [])) ∧
     (compress_file_xz lz fs fp od lvl).2 (xzOutputPath fp od) = some (lz lvl [])) := by
  refine ⟨⟨?_, ?_⟩, ⟨?_, ?_⟩, ⟨?_, ?_⟩⟩
  · rw [compress_file_gzip_some gz fs fp od lvl [] h]
    have hs : "Error compressing " ++ fp ++ ": division by zero"
        = "Error compressing " ++ fp ++ ": " ++ "division by zero" :=
      (String.append_assoc ("Error compressing " ++ fp) ": " "division by zero").symm
    rw [hs]
    rfl
  · rw [compress_file_gzip_some gz fs fp od lvl [] h]
    exact updateFS_same fs _ _
  · rw [compress_file_bzip2_some bz fs fp od lvl [] h]
    have hs : "Error compressing " ++ fp ++ ": division by zero"
        = "Error compressing " ++ fp ++ ": " ++ "division by zero" :=
      (String.append_assoc ("Error compressing " ++ fp) ": " "division by zero").symm
    rw [hs]
    rfl
  · rw [compress_file_bzip2_some bz fs fp od lvl [] h]
    exact updateFS_same fs _ _
  · rw [compress_file_xz_some lz fs fp od lvl [] h]
    have hs : "Error compressing " ++ fp ++ ": division by zero"
        = "Error compressing " ++ fp ++ ": " ++ "division by zero" :=
      (String.append_assoc ("Error compressing " ++ fp) ": " "division by zero").symm
    rw [hs]
    rfl
  · rw [compress_file_xz_some lz fs fp od lvl [] h]
    exact updateFS_same fs _ _

/-- C9 witness: a concrete zero-byte input, by
`adapters_zero_byte_input_failure`. -/
theorem adapters_zero_byte_input_failure_witness :
    compress_file_gzip (fun _ _ => ([7] : Bytes))
        (fun p => if p = "z.txt" then some ([] : Bytes) else none) "z.txt" none 6
      = (.failure "Error compressing z.txt: division by zero",
         updateFS (fun p => if p = "z.txt" then some ([] : Bytes) else none) "z.txt.gz" [7]) := by
  exact (adapters_zero_byte_input_failure (fun _ _ => ([7] : Bytes)) (fun _ _ => ([7] : Bytes))
    (fun _ _ => ([7] : Bytes)) (fun p => if p = "z.txt" then some ([] : Bytes) else none)
    "z.txt" none 6 rfl).1.1
